import Mathlib

/-!
# Verification of the QuizHive question-synthesis engine

Shallow embedding of `model_server/ai_question_generator.py` (class
`AIQuestionGenerator`) and proofs about it.

Modelling conventions:

* Raw model text handled by `_parse_ai_generated_question` is modelled as
  `List Char`; option mappings and concept catalogs use `String`.
* Python `dict`s are modelled as insertion-ordered association lists;
  re-assigning an existing key keeps its position (CPython semantics).
* All randomness (`random.shuffle`, `random.choice`) and the generative
  model calls are injected through a `RandomOracle`; theorems quantify over
  every oracle whose shuffles really permute their input.
* Python exceptions that escape a function are modelled with `Except PyError`;
  exceptions swallowed by a `try/except` are folded into the `Option`/fallback
  result exactly where the source catches them.
* The embedded instance is one whose fallback system was initialized
  (`_initialize_fallback_system` ran), which is the only constructible state
  without network access to download models; the `models_loaded` flag of that
  instance is kept as an explicit boolean parameter selecting the AI or the
  template branch in `_generate_single_question`.
* Python `str.lower`/`str.strip` and the regex classes `\s` are modelled on
  ASCII characters; every character relevant to the claims (A-D, `)`/`.`,
  ASCII whitespace) is ASCII, and no character lowercases onto `A`-`D`.
* CPython floats are IEEE-754 doubles.  The literals `0.6`, `0.5`, `0.4` are
  modelled by their exact values `m / 2 ^ 53`, and `int(total * ratio)` by
  rounding the exact integer product to 53 significant bits
  (round-to-nearest, ties-to-even) before truncating, which is exactly what
  the hardware multiplication does for these magnitudes.
-/

namespace QuizHive

/-! ## Character predicates (regex classes of the parser) -/

/-- The regex class `[A-D]`. -/
def isAD (c : Char) : Bool :=
  c == 'A' || c == 'B' || c == 'C' || c == 'D'

/-- The regex class `[\).]` (an option separator `)` or `.`). -/
def isSep (c : Char) : Bool :=
  c == ')' || c == '.'

/-- The regex class `\s` restricted to ASCII: space, tab, newline, carriage
return, vertical tab, form feed. -/
def isSpace (c : Char) : Bool :=
  c == ' ' || c == '\t' || c == '\n' || c == '\r' || c == '\x0b' || c == '\x0c'

/-- `str.strip()`: remove leading and trailing whitespace. -/
def pyStrip (s : List Char) : List Char :=
  ((s.dropWhile isSpace).reverse.dropWhile isSpace).reverse

/-- `str.lower()` on one ASCII character (no character lowercases onto an
uppercase ASCII letter, so this is all the claims need). -/
def pyCharLower (c : Char) : Char :=
  match c with
  | 'A' => 'a' | 'B' => 'b' | 'C' => 'c' | 'D' => 'd' | 'E' => 'e' | 'F' => 'f'
  | 'G' => 'g' | 'H' => 'h' | 'I' => 'i' | 'J' => 'j' | 'K' => 'k' | 'L' => 'l'
  | 'M' => 'm' | 'N' => 'n' | 'O' => 'o' | 'P' => 'p' | 'Q' => 'q' | 'R' => 'r'
  | 'S' => 's' | 'T' => 't' | 'U' => 'u' | 'V' => 'v' | 'W' => 'w' | 'X' => 'x'
  | 'Y' => 'y' | 'Z' => 'z'
  | c => c

/-- `str.upper()` on one ASCII character. -/
def pyCharUpper (c : Char) : Char :=
  if 'a' ≤ c ∧ c ≤ 'z' then Char.ofNat (c.toNat - 32) else c

/-- `str.lower()` on a whole text. -/
def pyLower (s : List Char) : List Char :=
  s.map pyCharLower

/-! ## The stem search

`re.search(r'(.+?)\s*[A-D][\).]', generated_text, re.DOTALL)`.

A match must start at position `0` whenever one exists (the leading `(.+?)`
can absorb any prefix), and the lazy group takes the least length `g ≥ 1`
such that position `g`, after its maximal whitespace run, carries a letter
`A`-`D` immediately followed by `)` or `.`. -/

/-- Length of the maximal `\s*` run at the head of a suffix. -/
def wsRun : List Char → ℕ
  | [] => 0
  | c :: cs => if isSpace c then wsRun cs + 1 else 0

/-- Does the suffix, after its maximal whitespace run, start with
`[A-D][\).]`? -/
def markerAfterWs (t : List Char) : Bool :=
  match t.drop (wsRun t) with
  | a :: b :: _ => isAD a && isSep b
  | _ => false

/-- Group 1 of the stem regex: the shortest nonempty prefix whose remainder
matches `\s*[A-D][\).]`, or `none` when the whole regex fails. -/
def stemGroup (s : List Char) : Option (List Char) :=
  ((List.range' 1 s.length).find? fun g => markerAfterWs (s.drop g)).map s.take

/-! ## The option search

`re.findall(r'([A-D])[\).]\s*([^A-D]+?)(?=[A-D][\).]|$)', generated_text,
re.DOTALL)`.

At an attempt position `p` carrying `[A-D][\).]`, the greedy `\s*` first
consumes the whole whitespace run `W` after the separator, the lazy
`([^A-D]+?)` then grows until the lookahead holds; if no growth succeeds the
engine gives one whitespace character back to the lazy group and accepts when
the lookahead holds right there.  (Python's `$` also matches just before a
final newline.)  This case analysis was validated exhaustively against
CPython `re` on randomized inputs. -/

/-- Length of the maximal run of characters outside `[A-D]` at the head of a
suffix. -/
def nonADRun : List Char → ℕ
  | [] => 0
  | c :: cs => if isAD c then 0 else nonADRun cs + 1

/-- The lookahead `(?=[A-D][\).]|$)` at absolute position `r` of `s`. -/
def lookaheadOk (s : List Char) (r : ℕ) : Bool :=
  match s.drop r with
  | [] => true
  | [c] => c == '\n'
  | a :: b :: _ => isAD a && isSep b

/-- One match attempt of the option regex at absolute position `p`:
`some (letter, rawGroup2, endPos)` on success. -/
def matchOptionAt (s : List Char) (p : ℕ) : Option (Char × List Char × ℕ) :=
  match s.drop p with
  | a :: b :: _ =>
    if isAD a && isSep b then
      let q0 := p + 2
      let W := wsRun (s.drop q0)
      let B := q0 + nonADRun (s.drop q0)
      match (List.range' (q0 + W + 1) (B - (q0 + W))).find? (lookaheadOk s) with
      | some r => some (a, (s.drop (q0 + W)).take (r - (q0 + W)), r)
      | none =>
        if 1 ≤ W ∧ lookaheadOk s (q0 + W) then
          some (a, (s.drop (q0 + W - 1)).take 1, q0 + W)
        else none
    else none
  | _ => none

/-- `re.findall` scan: try every position left to right, resuming after the
end of each match.  `fuel` bounds the recursion; `s.length + 1` is enough
because every step advances the position. -/
def scanOptionsAux (s : List Char) : ℕ → ℕ → List (Char × List Char)
  | 0, _ => []
  | fuel + 1, p =>
    if p < s.length then
      match matchOptionAt s p with
      | some (c, g, e) => (c, g) :: scanOptionsAux s fuel e
      | none => scanOptionsAux s fuel (p + 1)
    else []

/-- All `(letter, raw option text)` matches of the option regex. -/
def scanOptions (s : List Char) : List (Char × List Char) :=
  scanOptionsAux s (s.length + 1) 0

/-- One step of `options[letter] = text.strip()` on an insertion-ordered
dict: overwriting an existing key keeps its position. -/
def dictInsert (d : List (Char × List Char)) (k : Char) (v : List Char) :
    List (Char × List Char) :=
  if d.any fun p => p.1 == k then
    d.map fun p => if p.1 == k then (k, v) else p
  else d ++ [(k, v)]

/-- The `options` dict built from the findall matches (values stripped). -/
def buildOptions (ms : List (Char × List Char)) : List (Char × List Char) :=
  ms.foldl (fun d kv => dictInsert d kv.1 (pyStrip kv.2)) []

/-! ## The correct-answer search

`re.search(r'(?:correct answer|answer:?\s*|correct:?\s*)([A-D])',
generated_text.lower())`.

Note the search runs on the *lowercased* text while the capture class is the
*uppercase* `[A-D]`. -/

/-- The capture `([A-D])` at the head of a suffix. -/
def capAD : List Char → Option Char
  | [] => none
  | c :: _ => if isAD c then some c else none

/-- `\s*([A-D])`: the greedy whitespace run followed by the capture (shorter
whitespace runs cannot help, a whitespace character is never in `[A-D]`). -/
def wsCap (t : List Char) : Option Char :=
  capAD (t.drop (wsRun t))

/-- `:?\s*([A-D])` with the greedy optional colon. -/
def colonWsCap (t : List Char) : Option Char :=
  match t with
  | ':' :: t' => (wsCap t').orElse fun _ => wsCap t
  | _ => wsCap t

/-- One attempt of the correct-answer regex at the head of a suffix, trying
the three alternatives in source order. -/
def matchCorrectAt (t : List Char) : Option Char :=
  ((if "correct answer".toList.isPrefixOf t then capAD (t.drop 14) else none).orElse
    fun _ => if "answer".toList.isPrefixOf t then colonWsCap (t.drop 6) else none).orElse
    fun _ => if "correct".toList.isPrefixOf t then colonWsCap (t.drop 7) else none

/-- `re.search` for the correct-answer pattern: leftmost attempt wins. -/
def searchCorrect (s : List Char) : Option Char :=
  (List.range (s.length + 1)).findSome? fun p => matchCorrectAt (s.drop p)

/-! ## `_parse_ai_generated_question` -/

/-- The structured question data returned in the source as a
`{"question", "options", "correct", "explanation"}` dict. -/
structure QuestionData where
  question : String
  options : List (String × String)
  correct : String
  explanation : String
  deriving Repr, DecidableEq

/-- Lines 365-372 of the source: the correct-answer search over the lowered
text; when it fails and at least one option exists, default to the first
option label in insertion order. -/
def correctAnswerStep (raw : List Char) (options : List (Char × List Char)) :
    Option Char :=
  match searchCorrect (pyLower raw) with
  | some c => some (pyCharUpper c)
  | none =>
    match options with
    | [] => none
    | o :: _ => some o.1

/-- The explanation step of `_parse_ai_generated_question` (line 379) builds
the prompt `f"Explain why {correct_answer} is the correct answer for this
{concept} question about {topic} at {level} level."`, but `concept`, `topic`
and `level` are parameters of *other* methods and are not bound in this
function's scope (nor are they module globals), so evaluating the f-string
raises `NameError` before the model is called; the surrounding
`except Exception` turns it into the `None` return. -/
def explanationStep : Except String (List Char) :=
  .error "NameError: name 'concept' is not defined"

/-- `_parse_ai_generated_question(generated_text)`.  The `try` body runs the
stem search, the option extraction, the correct-answer search, the
`len(options) < 2` guard, and then the explanation step, whose `NameError`
is caught and converted to `None`. -/
def parseAIGeneratedQuestion (s : List Char) : Option QuestionData :=
  match stemGroup s with
  | none => none
  | some stem =>
    let question := pyStrip stem
    let options := buildOptions (scanOptions s)
    let correct_answer := correctAnswerStep s options
    if options.length < 2 then none
    else
      match explanationStep with
      | .error _ => none
      | .ok expl =>
        some
          { question := String.mk question
            options := options.map fun p => (String.mk [p.1], String.mk p.2)
            correct := (correct_answer.map fun c => String.mk [c]).getD ""
            explanation := String.mk expl }

example : parseAIGeneratedQuestion "This is just prose with no options.".toList = none := by
  decide

example :
    buildOptions (scanOptions "Q? A) x B) y answer: b".toList) =
      [('A', "x".toList), ('B', "y answer: b".toList)] := by
  decide

example : correctAnswerStep "Q? A) x B) y answer: b".toList
    (buildOptions (scanOptions "Q? A) x B) y answer: b".toList)) = some 'A' := by
  decide

/-! ## Request and question records -/

/-- `QuestionRequest` dataclass. -/
structure QuestionRequest where
  topic : String
  level : String
  num_questions : ℕ
  core_type : Option String := none
  keywords : Option (List String) := none
  question_types : Option (List String) := none
  deriving Repr, DecidableEq

/-- `GeneratedQuestion` dataclass. -/
structure GeneratedQuestion where
  id : String
  core_type : String
  level : String
  topic : String
  question : String
  options : List (String × String)
  correct : String
  explanation : String
  deriving Repr, DecidableEq

/-- Python exceptions that can escape the embedded methods. -/
inductive PyError where
  | keyError (key : String)
  | indexError
  | zeroDivisionError
  deriving Repr, DecidableEq

/-! ## Catalogs installed by `_initialize_fallback_system` -/

/-- `self.universal_concepts` as a dict lookup. -/
def universalConcepts : String → Option (List String) :=
  fun level =>
    if level = "beginner" then
      some ["basic concepts", "fundamentals", "introduction", "getting started",
        "syntax", "variables", "data types", "operators", "control flow"]
    else if level = "intermediate" then
      some ["functions", "methods", "classes", "objects", "modules", "packages",
        "error handling", "file operations", "algorithms", "data structures"]
    else if level = "advanced" then
      some ["optimization", "performance", "architecture", "design patterns",
        "advanced techniques", "best practices", "scalability", "security"]
    else none

/-- `self.topic_concept_generators` in dict insertion order; each topic maps
to its own level dict. -/
def topicConceptGenerators : List (String × (String → Option (List String))) :=
  [("programming", fun level =>
      if level = "beginner" then
        some ["variables", "loops", "functions", "conditionals", "arrays", "strings"]
      else if level = "intermediate" then
        some ["classes", "inheritance", "polymorphism", "encapsulation", "recursion"]
      else if level = "advanced" then
        some ["design patterns", "memory management", "concurrency", "performance optimization"]
      else none),
   ("python", fun level =>
      if level = "beginner" then
        some ["lists", "dictionaries", "functions", "loops", "conditionals", "strings"]
      else if level = "intermediate" then
        some ["classes", "decorators", "generators", "context managers", "modules"]
      else if level = "advanced" then
        some ["metaclasses", "async programming", "memory management", "C extensions"]
      else none),
   ("javascript", fun level =>
      if level = "beginner" then
        some ["variables", "functions", "arrays", "objects", "DOM manipulation"]
      else if level = "intermediate" then
        some ["closures", "promises", "async/await", "prototypes", "modules"]
      else if level = "advanced" then
        some ["event loop", "performance optimization", "design patterns", "frameworks"]
      else none)]

/-- A question-stem template, as a function of `concept` and `topic`
(`template.format(concept=..., topic=...)`). -/
def baselineTemplates : List (String → String → String) :=
  [fun c t => "What is the purpose of " ++ c ++ " in " ++ t ++ "?",
   fun c t => "How do you use " ++ c ++ " in " ++ t ++ " programming?",
   fun c t => "Which statement best describes " ++ c ++ " in " ++ t ++ "?",
   fun c t => "What are the benefits of using " ++ c ++ " in " ++ t ++ "?",
   fun c t => "When would you implement " ++ c ++ " in " ++ t ++ "?"]

/-- The `variable` stem templates. -/
def variableTemplates : List (String → String → String) :=
  [fun c t => "How would you solve a problem using " ++ c ++ " in " ++ t ++ "?",
   fun c t => "What is the best approach for implementing " ++ c ++ " in " ++ t ++ "?",
   fun c t => "Which method would you choose for " ++ c ++ " in " ++ t ++ " and why?",
   fun c t => "How do you optimize " ++ c ++ " usage in " ++ t ++ " applications?",
   fun c t => "What are the trade-offs when using " ++ c ++ " in " ++ t ++ "?"]

/-- `self.question_templates` dict lookup. -/
def questionTemplates : String → Option (List (String → String → String)) :=
  fun core_type =>
    if core_type = "baseline" then some baselineTemplates
    else if core_type = "variable" then some variableTemplates
    else none

/-! ## `_determine_core_type` and the float model

`core_distribution` stores the Python float literals `0.6`, `0.5`, `0.4`.
As IEEE-754 doubles their exact values are `m / 2 ^ 53` for the mantissas
below.  `total_questions * baseline_ratio` multiplies the exact integer
`total_questions` by such a value and rounds the product to 53 significant
bits (round-to-nearest, ties-to-even); `int(...)` then truncates toward
zero. -/

/-- Mantissa of the double `0.6`: the nearest double is
`5404319552844595 / 2 ^ 53`. -/
def mant06 : ℕ := 5404319552844595

/-- Mantissa of the double `0.5` (exact): `4503599627370496 / 2 ^ 53`. -/
def mant05 : ℕ := 4503599627370496

/-- Mantissa of the double `0.4`: the nearest double is
`7205759403792794 / 2 ^ 54 = 3602879701896397 / 2 ^ 53`. -/
def mant04 : ℕ := 3602879701896397

/-- `self.core_distribution.get(level, {"baseline": 0.6, "variable": 0.4})`,
restricted to the `"baseline"` entry actually read, with each float literal
replaced by the mantissa of its `m / 2 ^ 53` value. -/
def baselineMantissa (level : String) : ℕ :=
  if level = "beginner" then mant06
  else if level = "intermediate" then mant05
  else if level = "advanced" then mant04
  else mant06

/-- Round a nonnegative integer to 53 significant bits, round-to-nearest
with ties-to-even.  Valid for `p < 2 ^ 60`, which covers every product
`total * mantissa` with `total ≤ 50`. -/
def roundTo53 (p : ℕ) : ℕ :=
  let s :=
    if p < 2 ^ 53 then 0
    else if p < 2 ^ 54 then 1
    else if p < 2 ^ 55 then 2
    else if p < 2 ^ 56 then 3
    else if p < 2 ^ 57 then 4
    else if p < 2 ^ 58 then 5
    else if p < 2 ^ 59 then 6
    else 7
  if s = 0 then p
  else
    let q := p / 2 ^ s
    let r := p % 2 ^ s
    let half := 2 ^ (s - 1)
    let q' :=
      if half < r then q + 1
      else if r < half then q
      else if q % 2 = 0 then q else q + 1
    q' * 2 ^ s

/-- `int(total * ratio)` where `ratio` is the double `m / 2 ^ 53`: the double
product is the 53-bit rounding of the exact product, and `int` truncates. -/
def pyIntMulFloat (total m : ℕ) : ℕ :=
  roundTo53 (total * m) / 2 ^ 53

/-- Line 468 of the source: `baseline_count = int(total_questions *
baseline_ratio)`. -/
def baselineCount (level : String) (total_questions : ℕ) : ℕ :=
  pyIntMulFloat total_questions (baselineMantissa level)

/-- `_determine_core_type(level, index, total_questions)`. -/
def determineCoreType (level : String) (index total_questions : ℕ) : String :=
  if index < baselineCount level total_questions then "baseline" else "variable"

/-! ## Randomness and model-call oracle -/

/-- Injected sources of nondeterminism: `random.shuffle` of the concept
list, `random.choice` of a stem template (an arbitrary index, reduced
modulo the pool size), `random.shuffle` of the four option texts (per
question index), and the generative model call of the AI path (per question
index; `none` models a raised exception, `some txt` the returned
`generated_text`). -/
structure RandomOracle where
  conceptShuffle : List String → List String
  templatePick : ℕ → ℕ
  optionShuffle : ℕ → List String → List String
  aiText : ℕ → Option (List Char)

/-- An oracle is valid when its two shuffles really permute their input,
as `random.shuffle` does. -/
def RandomOracle.Valid (o : RandomOracle) : Prop :=
  (∀ l, (o.conceptShuffle l).Perm l) ∧ ∀ i l, (o.optionShuffle i l).Perm l

/-! ## Option synthesis -/

/-- The labels `chr(65 + i)` for `i = 0, 1, 2, 3`. -/
def optionLabels : List String := ["A", "B", "C", "D"]

/-- `_create_options_dict(correct_text, incorrect_options, concept, topic,
level)`, with the internal `random.shuffle` injected as `σ`.  Labels `A`-`D`
are zipped onto the first four shuffled texts; the scan looks for the first
label holding exactly `correct_text`, and the (dead, see `C6`) default takes
the first key — `list(options.keys())[0]` raises `IndexError` on an empty
dict. -/
def createOptionsDict (σ : List String → List String)
    (correct_text : String) (incorrect_options : List String)
    (concept topic level : String) : Except PyError QuestionData :=
  let all_options := σ (correct_text :: incorrect_options)
  let options := optionLabels.zip (all_options.take 4)
  let correct_letter := (options.find? fun p => p.2 == correct_text).map Prod.fst
  let explanation :=
    "The correct answer demonstrates proper understanding of " ++ concept ++
      " in " ++ topic ++ " at " ++ level ++ " level."
  let question :=
    "What is the most accurate description of " ++ concept ++ " in " ++ topic ++ "?"
  match correct_letter with
  | some L => .ok ⟨question, options, L, explanation⟩
  | none =>
    match options with
    | [] => .error .indexError
    | p :: _ => .ok ⟨question, options, p.1, explanation⟩

/-- The correct statement of `_generate_baseline_options`. -/
def baselineCorrectText (concept topic : String) : String :=
  "A fundamental " ++ concept ++ " concept in " ++ topic ++
    " that provides essential functionality"

/-- The incorrect statements of `_generate_baseline_options`. -/
def baselineIncorrectTexts (concept topic : String) : List String :=
  ["An advanced " ++ concept ++ " technique only used in complex " ++ topic ++
      " applications",
   "A deprecated " ++ concept ++ " method that should no longer be used in " ++ topic,
   "An external " ++ concept ++ " library not part of core " ++ topic]

/-- The correct statement of `_generate_variable_options`. -/
def variableCorrectText (concept topic : String) : String :=
  "An advanced application of " ++ concept ++ " that solves complex " ++ topic ++
    " problems efficiently"

/-- The incorrect statements of `_generate_variable_options`. -/
def variableIncorrectTexts (concept topic : String) : List String :=
  ["A basic " ++ concept ++ " implementation that only handles simple " ++ topic ++
      " cases",
   "A " ++ concept ++ " workaround that provides temporary " ++ topic ++
      " functionality",
   "A theoretical " ++ concept ++ " approach with no practical " ++ topic ++
      " applications"]

/-- `_generate_baseline_options(topic, concept, level)`. -/
def generateBaselineOptions (σ : List String → List String)
    (topic concept level : String) : Except PyError QuestionData :=
  createOptionsDict σ (baselineCorrectText concept topic)
    (baselineIncorrectTexts concept topic) concept topic level

/-- `_generate_variable_options(topic, concept, level)`. -/
def generateVariableOptions (σ : List String → List String)
    (topic concept level : String) : Except PyError QuestionData :=
  createOptionsDict σ (variableCorrectText concept topic)
    (variableIncorrectTexts concept topic) concept topic level

/-! ## Concept lookup and the question pipeline -/

/-- Python's substring containment `p in l` on character lists. -/
def listContains (l p : List Char) : Bool :=
  l.tails.any fun t => p.isPrefixOf t

/-- Case-insensitive containment test `key in topic_lower or topic_lower in
key` of `_get_concepts_for_topic`. -/
def topicMatches (key topicLower : String) : Bool :=
  listContains topicLower.toList key.toList || listContains key.toList topicLower.toList

/-- `_get_concepts_for_topic(topic, level)`.  On a catalog hit the source
runs `concepts.get(level, self.universal_concepts[level])`: the default
argument is evaluated eagerly, so an unknown level raises `KeyError` even
when the topic dict would have served the request; with no catalog hit,
`self.universal_concepts[level]` raises the same `KeyError`. -/
def getConceptsForTopic (topic level : String) : Except PyError (List String) :=
  let topicLower := String.mk (pyLower topic.toList)
  match topicConceptGenerators.find? fun kv => topicMatches kv.1 topicLower with
  | some kv =>
    match universalConcepts level with
    | none => .error (.keyError level)
    | some u => .ok ((kv.2 level).getD u)
  | none =>
    match universalConcepts level with
    | none => .error (.keyError level)
    | some u => .ok u

/-- Lines 250-255 of `generate_questions`: the concept pool before the
shuffle — the topic's list, extended (by plain list concatenation, no
deduplication) with `self.universal_concepts.get(request.level, [])` when it
is shorter than the requested count. -/
def conceptPool (topic level : String) (num_questions : ℕ) :
    Except PyError (List String) :=
  match getConceptsForTopic topic level with
  | .error e => .error e
  | .ok concepts =>
    if concepts.length < num_questions then
      .ok (concepts ++ (universalConcepts level).getD [])
    else .ok concepts

/-- `_generate_fallback_question(request, core_type, concepts, index)`:
`concepts[index % len(concepts)]` raises `ZeroDivisionError` on an empty
pool; a stem template is chosen from
`self.question_templates.get(core_type, self.question_templates["baseline"])`
but the formatted stem is discarded by the source, which returns the
options data unchanged. -/
def generateFallbackQuestion (o : RandomOracle) (req : QuestionRequest)
    (core_type : String) (concepts : List String) (index : ℕ) :
    Except PyError QuestionData :=
  match concepts with
  | [] => .error .zeroDivisionError
  | c :: cs =>
    let concept := (c :: cs).getD (index % (c :: cs).length) c
    let templates := (questionTemplates core_type).getD baselineTemplates
    let template := templates.getD (o.templatePick index % templates.length) fun _ _ => ""
    let _question := template concept req.topic
    if core_type = "baseline" then
      generateBaselineOptions (o.optionShuffle index) req.topic concept req.level
    else
      generateVariableOptions (o.optionShuffle index) req.topic concept req.level

/-- `_generate_ai_question(request, core_type, concepts, index)`: inside the
`try`, `concepts[index % len(concepts)]` can raise `ZeroDivisionError`,
which the `except` converts into a fallback call (that raises it again); a
model-call failure (`o.aiText index = none`) and an unparsable reply both
fall back as well. -/
def generateAiQuestion (o : RandomOracle) (req : QuestionRequest)
    (core_type : String) (concepts : List String) (index : ℕ) :
    Except PyError QuestionData :=
  match concepts with
  | [] => generateFallbackQuestion o req core_type concepts index
  | _ :: _ =>
    match o.aiText index with
    | none => generateFallbackQuestion o req core_type concepts index
    | some txt =>
      match parseAIGeneratedQuestion txt with
      | none => generateFallbackQuestion o req core_type concepts index
      | some d => .ok d

/-- `_generate_single_question(request, index, concepts)`.  `counter` is the
instance's `question_id_counter`; `if request.core_type:` is Python
truthiness, so an empty string behaves like `None`. -/
def generateSingleQuestion (o : RandomOracle) (models_loaded : Bool)
    (counter : ℕ) (req : QuestionRequest) (index : ℕ)
    (concepts : List String) : Except PyError GeneratedQuestion :=
  let core_type :=
    match req.core_type with
    | some s => if s = "" then determineCoreType req.level index req.num_questions else s
    | none => determineCoreType req.level index req.num_questions
  let data :=
    if models_loaded then generateAiQuestion o req core_type concepts index
    else generateFallbackQuestion o req core_type concepts index
  data.map fun d =>
    { id := "AI_GEN_" ++ Nat.repr (counter + index)
      core_type := core_type
      level := req.level
      topic := req.topic
      question := d.question
      options := d.options
      correct := d.correct
      explanation := d.explanation }

/-- The `for i in range(request.num_questions)` loop of
`generate_questions`, collecting the generated questions and propagating any
escaping exception. -/
def questionLoop (o : RandomOracle) (models_loaded : Bool) (counter : ℕ)
    (req : QuestionRequest) (concepts : List String) :
    List ℕ → Except PyError (List GeneratedQuestion)
  | [] => .ok []
  | i :: is =>
    match generateSingleQuestion o models_loaded counter req i concepts with
    | .error e => .error e
    | .ok q =>
      match questionLoop o models_loaded counter req concepts is with
      | .error e => .error e
      | .ok qs => .ok (q :: qs)

/-- `generate_questions(request)` on a fallback-initialized instance whose
`question_id_counter` is `counter`. -/
def generateQuestions (o : RandomOracle) (models_loaded : Bool) (counter : ℕ)
    (req : QuestionRequest) : Except PyError (List GeneratedQuestion) :=
  match conceptPool req.topic req.level req.num_questions with
  | .error e => .error e
  | .ok pool =>
    let concepts := o.conceptShuffle pool
    questionLoop o models_loaded counter req concepts (List.range req.num_questions)

/-- `generate_questions` together with the instance's `question_id_counter`
after the call: the method body never assigns `self.question_id_counter`, so
the state component is returned unchanged. -/
def generateQuestionsWithState (o : RandomOracle) (models_loaded : Bool)
    (counter : ℕ) (req : QuestionRequest) :
    Except PyError (List GeneratedQuestion) × ℕ :=
  (generateQuestions o models_loaded counter req, counter)

/-- A deterministic oracle used by concrete witnesses: the identity shuffle
and the first template. -/
def idOracle : RandomOracle :=
  { conceptShuffle := id
    templatePick := fun _ => 0
    optionShuffle := fun _ l => l
    aiText := fun _ => none }

example : idOracle.Valid := ⟨fun _ => List.Perm.refl _, fun _ _ => List.Perm.refl _⟩

/-- The single question produced by the identity oracle for
`{topic := "Python", level := "beginner", num_questions := 1}` on a fresh
instance; used as a concrete witness. -/
def q0batch : GeneratedQuestion :=
  { id := "AI_GEN_1000"
    core_type := "variable"
    level := "beginner"
    topic := "Python"
    question := "What is the most accurate description of lists in Python?"
    options := [("A", "An advanced application of lists that solves complex Python problems efficiently"),
      ("B", "A basic lists implementation that only handles simple Python cases"),
      ("C", "A lists workaround that provides temporary Python functionality"),
      ("D", "A theoretical lists approach with no practical Python applications")]
    correct := "A"
    explanation := "The correct answer demonstrates proper understanding of lists in Python at beginner level." }

/-! ## Injectivity of the decimal id rendering -/

/-- Numeric value of a decimal digit character. -/
def digitVal (c : Char) : ℕ := c.toNat - 48

/-- Numeric value of a decimal digit string. -/
def charsVal (l : List Char) : ℕ := l.foldl (fun a c => a * 10 + digitVal c) 0

theorem digitVal_digitChar {d : ℕ} (h : d < 10) : digitVal (Nat.digitChar d) = d := by
  interval_cases d <;> rfl

theorem toDigitsCore_append (f : ℕ) :
    ∀ n ds, n < f →
      Nat.toDigitsCore 10 f n ds = Nat.toDigitsCore 10 f n [] ++ ds := by
  induction f with
  | zero => intro n ds h; omega
  | succ f ih =>
    intro n ds h
    simp only [Nat.toDigitsCore]
    by_cases h0 : n / 10 = 0
    · simp [h0]
    · have hn : 10 ≤ n := by
        rcases Nat.lt_or_ge n 10 with h' | h'
        · exact absurd (Nat.div_eq_of_lt h') h0
        · exact h'
      have hlt : n / 10 < f := by
        have := Nat.div_lt_self (by omega : 0 < n) (by omega : 1 < 10)
        omega
      simp only [h0, if_false]
      rw [ih (n / 10) (Nat.digitChar (n % 10) :: ds) hlt,
        ih (n / 10) [Nat.digitChar (n % 10)] hlt, List.append_assoc]
      rfl

theorem charsVal_append_singleton (l : List Char) (c : Char) :
    charsVal (l ++ [c]) = charsVal l * 10 + digitVal c := by
  simp [charsVal, List.foldl_append]

theorem charsVal_toDigitsCore (f : ℕ) :
    ∀ n, n < f → charsVal (Nat.toDigitsCore 10 f n []) = n := by
  induction f with
  | zero => intro n h; omega
  | succ f ih =>
    intro n h
    simp only [Nat.toDigitsCore]
    by_cases h0 : n / 10 = 0
    · have hn : n < 10 := by
        rcases Nat.lt_or_ge n 10 with h' | h'
        · exact h'
        · have := Nat.div_le_div_right (c := 10) h'
          simp at this; omega
      have : n % 10 = n := Nat.mod_eq_of_lt hn
      simp [h0, charsVal, this, digitVal_digitChar hn]
    · have hn : 10 ≤ n := by
        rcases Nat.lt_or_ge n 10 with h' | h'
        · exact absurd (Nat.div_eq_of_lt h') h0
        · exact h'
      have hlt : n / 10 < f := by
        have := Nat.div_lt_self (by omega : 0 < n) (by omega : 1 < 10)
        omega
      simp only [h0, if_false]
      rw [toDigitsCore_append f (n / 10) [Nat.digitChar (n % 10)] hlt,
        charsVal_append_singleton, ih (n / 10) hlt,
        digitVal_digitChar (Nat.mod_lt n (by omega))]
      omega

theorem natRepr_injective : Function.Injective Nat.repr := by
  intro m n h
  have h' : Nat.toDigits 10 m = Nat.toDigits 10 n := by
    simpa [Nat.repr, List.asString_inj] using h
  have hm := charsVal_toDigitsCore (m + 1) m (Nat.lt_succ_self m)
  have hn := charsVal_toDigitsCore (n + 1) n (Nat.lt_succ_self n)
  rw [show Nat.toDigitsCore 10 (m + 1) m [] = Nat.toDigits 10 m from rfl] at hm
  rw [show Nat.toDigitsCore 10 (n + 1) n [] = Nat.toDigits 10 n from rfl] at hn
  rw [← hm, ← hn, h']

theorem idString_injective :
    Function.Injective fun n : ℕ => "AI_GEN_" ++ Nat.repr n := by
  intro m n h
  apply natRepr_injective
  have hd := congrArg String.data h
  simp only [String.data_append] at hd
  exact String.ext (List.append_cancel_left hd)

/-! ## The correct-answer regex never matches the lowered text

The pattern's capture class is the uppercase `[A-D]`, but
`_parse_ai_generated_question` searches `generated_text.lower()`, which
contains no uppercase character at all. -/

/-- No character of the list lies in the class `[A-D]`. -/
def NoAD (l : List Char) : Prop := ∀ c ∈ l, isAD c = false

theorem isAD_pyCharLower (c : Char) : isAD (pyCharLower c) = false := by
  unfold pyCharLower
  split <;> first
    | rfl
    | (rename_i h1 h2 h3 h4 _ _ _ _ _ _ _ _ _ _ _ _ _ _ _ _ _ _ _ _ _ _
       simp only [isAD, Bool.or_eq_false_iff, beq_eq_false_iff_ne]
       exact ⟨⟨⟨h1, h2⟩, h3⟩, h4⟩)

theorem noAD_pyLower (s : List Char) : NoAD (pyLower s) := by
  intro c hc
  rcases List.mem_map.mp hc with ⟨a, _, rfl⟩
  exact isAD_pyCharLower a

theorem noAD_drop {l : List Char} (h : NoAD l) (k : ℕ) : NoAD (l.drop k) :=
  fun c hc => h c (List.drop_subset k l hc)

theorem capAD_eq_none {l : List Char} (h : NoAD l) : capAD l = none := by
  cases l with
  | nil => rfl
  | cons c cs => simp [capAD, h c (List.mem_cons_self c cs)]

theorem wsCap_eq_none {l : List Char} (h : NoAD l) : wsCap l = none :=
  capAD_eq_none (noAD_drop h _)

theorem colonWsCap_eq_none {l : List Char} (h : NoAD l) : colonWsCap l = none := by
  unfold colonWsCap
  split
  · rename_i t'
    have ht' : NoAD t' := fun c hc => h c (List.mem_cons_of_mem _ hc)
    rw [wsCap_eq_none ht', wsCap_eq_none h]
    rfl
  · exact wsCap_eq_none h

theorem matchCorrectAt_eq_none {l : List Char} (h : NoAD l) :
    matchCorrectAt l = none := by
  unfold matchCorrectAt
  have h14 := capAD_eq_none (noAD_drop h 14)
  have h6 := colonWsCap_eq_none (noAD_drop h 6)
  have h7 := colonWsCap_eq_none (noAD_drop h 7)
  split <;> split <;> split <;> simp_all [Option.orElse]

theorem searchCorrect_pyLower_eq_none (s : List Char) :
    searchCorrect (pyLower s) = none := by
  unfold searchCorrect
  rw [List.findSome?_eq_none_iff]
  intro p _
  exact matchCorrectAt_eq_none (noAD_drop (noAD_pyLower s) p)

/-! ## `_parse_ai_generated_question` always returns `None` -/

theorem parseAIGeneratedQuestion_eq_none (s : List Char) :
    parseAIGeneratedQuestion s = none := by
  unfold parseAIGeneratedQuestion
  cases stemGroup s with
  | none => rfl
  | some stem => simp [explanationStep]

theorem generateAiQuestion_eq_fallback (o : RandomOracle) (req : QuestionRequest)
    (core_type : String) (concepts : List String) (index : ℕ) :
    generateAiQuestion o req core_type concepts index =
      generateFallbackQuestion o req core_type concepts index := by
  unfold generateAiQuestion
  cases concepts with
  | nil => rfl
  | cons c cs =>
    cases o.aiText index with
    | none => rfl
    | some txt => simp [parseAIGeneratedQuestion_eq_none]

/-! ## Option markers

Every extracted option letter sits at a position carrying a lettered option
marker `[A-D][\).]`, and the option dict has pairwise distinct keys, so the
dict can never hold more entries than the text has distinct marker
letters. -/

/-- The marker letter at absolute position `p`, when `s` carries
`[A-D][\).]` there. -/
def markerLetterAt (s : List Char) (p : ℕ) : Option Char :=
  match s.drop p with
  | a :: b :: _ => if isAD a && isSep b then some a else none
  | _ => none

/-- The distinct letters of `A`-`D` appearing as option markers in `s`. -/
def markerLetters (s : List Char) : List Char :=
  ((List.range s.length).filterMap (markerLetterAt s)).dedup

theorem matchOptionAt_marker {s : List Char} {p : ℕ} {c : Char}
    {g : List Char} {e : ℕ} (h : matchOptionAt s p = some (c, g, e)) :
    markerLetterAt s p = some c ∧ p < s.length := by
  unfold matchOptionAt at h
  unfold markerLetterAt
  constructor
  · split at h
    · rename_i a b rest heq
      split at h
      · rename_i hab
        rw [if_pos hab]
        dsimp only at h
        split at h
        · exact congrArg some (congrArg Prod.fst (Option.some.inj h))
        · split at h
          · exact congrArg some (congrArg Prod.fst (Option.some.inj h))
          · exact absurd h (by simp)
      · exact absurd h (by simp)
    · exact absurd h (by simp)
  · by_contra hp
    have : s.drop p = [] := List.drop_eq_nil_of_le (by omega)
    rw [this] at h
    exact absurd h (by simp)

theorem scanOptionsAux_letter_mem {s : List Char} :
    ∀ (fuel p : ℕ) {k : Char} {v : List Char},
      (k, v) ∈ scanOptionsAux s fuel p →
      k ∈ (List.range s.length).filterMap (markerLetterAt s) := by
  intro fuel
  induction fuel with
  | zero =>
    intro p k v h
    exact absurd h (List.not_mem_nil _)
  | succ fuel ih =>
    intro p k v h
    unfold scanOptionsAux at h
    split at h
    · rename_i hp
      split at h
      · rename_i c g e heq
        rcases List.mem_cons.mp h with h' | h'
        · obtain ⟨hm, hplen⟩ := matchOptionAt_marker heq
          have hk : k = c := congrArg Prod.fst h'
          exact List.mem_filterMap.mpr ⟨p, List.mem_range.mpr hplen, hk ▸ hm⟩
        · exact ih e h'
      · exact ih (p + 1) h
    · exact absurd h (List.not_mem_nil _)

theorem keys_dictInsert (d : List (Char × List Char)) (k : Char) (v : List Char) :
    (dictInsert d k v).map Prod.fst =
      if k ∈ d.map Prod.fst then d.map Prod.fst else d.map Prod.fst ++ [k] := by
  unfold dictInsert
  by_cases hmem : k ∈ d.map Prod.fst
  · have hany : (d.any fun p => p.1 == k) = true := by
      rcases List.mem_map.mp hmem with ⟨p, hp, rfl⟩
      exact List.any_eq_true.mpr ⟨p, hp, by simp⟩
    rw [if_pos hany, if_pos hmem, List.map_map]
    apply List.map_congr_left
    intro p _
    by_cases hpk : p.1 = k
    · simp [hpk]
    · simp [Function.comp, hpk]
  · have hany : (d.any fun p => p.1 == k) = false := by
      rw [List.any_eq_false]
      intro p hp hpk
      exact hmem (List.mem_map.mpr ⟨p, hp, beq_iff_eq.mp hpk⟩)
    rw [if_neg (by simp [hany]), if_neg hmem, List.map_append]
    rfl

theorem buildOptions_keys_aux (ms : List (Char × List Char)) :
    ∀ d : List (Char × List Char),
      (d.map Prod.fst).Nodup →
      ((ms.foldl (fun d kv => dictInsert d kv.1 (pyStrip kv.2)) d).map Prod.fst).Nodup ∧
      ∀ k ∈ (ms.foldl (fun d kv => dictInsert d kv.1 (pyStrip kv.2)) d).map Prod.fst,
        k ∈ d.map Prod.fst ∨ k ∈ ms.map Prod.fst := by
  induction ms with
  | nil => intro d hd; exact ⟨hd, fun k hk => Or.inl hk⟩
  | cons kv ms ih =>
    intro d hd
    simp only [List.foldl_cons]
    have hkeys := keys_dictInsert d kv.1 (pyStrip kv.2)
    have hnd : ((dictInsert d kv.1 (pyStrip kv.2)).map Prod.fst).Nodup := by
      rw [hkeys]
      by_cases hmem : kv.1 ∈ d.map Prod.fst
      · rwa [if_pos hmem]
      · rw [if_neg hmem]
        refine hd.append (List.nodup_singleton _) ?_
        intro a ha hb
        rw [List.mem_singleton] at hb
        exact hmem (hb ▸ ha)
    refine ⟨(ih _ hnd).1, fun k hk => ?_⟩
    rcases (ih _ hnd).2 k hk with h' | h'
    · rw [hkeys] at h'
      by_cases hmem : kv.1 ∈ d.map Prod.fst
      · rw [if_pos hmem] at h'
        exact Or.inl h'
      · rw [if_neg hmem] at h'
        rcases List.mem_append.mp h' with h'' | h''
        · exact Or.inl h''
        · exact Or.inr (by simp [List.mem_singleton.mp h''])
    · exact Or.inr (List.mem_cons_of_mem _ h')

theorem buildOptions_keys (ms : List (Char × List Char)) :
    ((buildOptions ms).map Prod.fst).Nodup ∧
      ∀ k ∈ (buildOptions ms).map Prod.fst, k ∈ ms.map Prod.fst := by
  have h := buildOptions_keys_aux ms []
  simp only [List.map_nil, List.nodup_nil, true_implies] at h
  exact ⟨h.1, fun k hk => by
    rcases h.2 k hk with h' | h'
    · exact absurd h' (by simp)
    · exact h'⟩

theorem buildOptions_length_le (s : List Char) :
    (buildOptions (scanOptions s)).length ≤ (markerLetters s).length := by
  obtain ⟨hnd, hsub⟩ := buildOptions_keys (scanOptions s)
  have hsub' : ∀ k ∈ (buildOptions (scanOptions s)).map Prod.fst,
      k ∈ (List.range s.length).filterMap (markerLetterAt s) := by
    intro k hk
    rcases List.mem_map.mp (hsub k hk) with ⟨⟨k', v⟩, hkv, hk'⟩
    exact hk' ▸ scanOptionsAux_letter_mem _ _ hkv
  have h1 : (buildOptions (scanOptions s)).length =
      ((buildOptions (scanOptions s)).map Prod.fst).length :=
    (List.length_map _ _).symm
  rw [h1, ← List.toFinset_card_of_nodup hnd]
  have h2 : ((buildOptions (scanOptions s)).map Prod.fst).toFinset ⊆
      ((List.range s.length).filterMap (markerLetterAt s)).toFinset := by
    intro k hk
    exact List.mem_toFinset.mpr (hsub' k (List.mem_toFinset.mp hk))
  calc ((buildOptions (scanOptions s)).map Prod.fst).toFinset.card
      ≤ ((List.range s.length).filterMap (markerLetterAt s)).toFinset.card :=
        Finset.card_le_card h2
    _ = (markerLetters s).length := by
        rw [List.card_toFinset]
        rfl

/-! ## Structure of `_create_options_dict` results -/

theorem find?_zip_snd {α : Type} [DecidableEq α] (a d : α) :
    ∀ (M : List α) (L : List α), a ∈ M → M.indexOf a < L.length →
      (L.zip M).find? (fun p => p.2 == a) = some (L.getD (M.indexOf a) d, a) := by
  intro M
  induction M with
  | nil => intro L h; exact absurd h (List.not_mem_nil a)
  | cons y ys ih =>
    intro L hmem hlen
    by_cases hya : y = a
    · subst hya
      rw [List.indexOf_cons_self] at hlen ⊢
      cases L with
      | nil => exact absurd hlen (by simp)
      | cons x xs => simp [List.find?]
    · have hne : (y == a) = false := beq_eq_false_iff_ne.mpr hya
      rw [List.indexOf_cons_ne _ hya] at hlen ⊢
      cases L with
      | nil => exact absurd hlen (by simp)
      | cons x xs =>
        have hmem' : a ∈ ys := by
          rcases List.mem_cons.mp hmem with h' | h'
          · exact absurd h'.symm hya
          · exact h'
        simp only [List.zip_cons_cons, List.find?, hne]
        exact ih xs hmem' (by simpa using hlen)

theorem getD_mem_of_lt {α : Type} (l : List α) (d : α) {i : ℕ}
    (h : i < l.length) : l.getD i d ∈ l := by
  rw [List.getD_eq_getElem?_getD, List.getElem?_eq_getElem h]
  exact List.getElem_mem h

theorem indexOf_eq_of_count_one {α : Type} [DecidableEq α] (a d : α) :
    ∀ (l : List α) (i : ℕ), l.count a = 1 → i < l.length → l.getD i d = a →
      l.indexOf a = i := by
  intro l
  induction l with
  | nil =>
    intro i _ h _
    exact absurd h (by simp)
  | cons x xs ih =>
    intro i hcount hi hget
    by_cases hxa : x = a
    · subst hxa
      rw [List.indexOf_cons_self]
      rcases Nat.eq_zero_or_pos i with rfl | hpos
      · rfl
      · exfalso
        obtain ⟨j, rfl⟩ := Nat.exists_eq_add_of_le hpos
        rw [List.count_cons_self] at hcount
        have hxs : xs.count x = 0 := by omega
        have hj : j < xs.length := by
          simp only [List.length_cons] at hi
          omega
        have hgx : xs.getD j d = x := by simpa [Nat.add_comm] using hget
        have hx : x ∈ xs := hgx ▸ getD_mem_of_lt xs d hj
        rw [List.count_eq_zero] at hxs
        exact hxs hx
    · rw [List.indexOf_cons_ne _ hxa]
      rcases Nat.eq_zero_or_pos i with rfl | hpos
      · exact absurd (by simpa using hget) hxa
      · obtain ⟨j, rfl⟩ := Nat.exists_eq_add_of_le hpos
        have hcount' : xs.count a = 1 := by
          rw [List.count_cons_of_ne (Ne.symm hxa)] at hcount
          exact hcount
        have hj : j < xs.length := by
          simp only [List.length_cons] at hi
          omega
        have hget' : xs.getD j d = a := by simpa [Nat.add_comm] using hget
        rw [ih j hcount' hj hget']
        omega

theorem createOptionsDict_ok (σ : List String → List String)
    (ct : String) (inc : List String) (cc tt ll : String)
    (hp : (σ (ct :: inc)).Perm (ct :: inc)) (hlen : inc.length = 3) :
    ∃ d, createOptionsDict σ ct inc cc tt ll = .ok d ∧
      d.options = optionLabels.zip (σ (ct :: inc)) ∧
      d.correct = optionLabels.getD ((σ (ct :: inc)).indexOf ct) "" ∧
      (σ (ct :: inc)).indexOf ct < 4 ∧
      d.options.map Prod.fst = optionLabels := by
  have hall : (σ (ct :: inc)).length = 4 := by
    rw [hp.length_eq]
    simp [hlen]
  have hmem : ct ∈ σ (ct :: inc) := hp.mem_iff.mpr (List.mem_cons_self ct inc)
  have hidx : (σ (ct :: inc)).indexOf ct < 4 :=
    hall ▸ List.indexOf_lt_length.mpr hmem
  have htake : (σ (ct :: inc)).take 4 = σ (ct :: inc) := by
    conv_lhs => rw [← hall]
    exact List.take_length (σ (ct :: inc))
  have hfind := find?_zip_snd ct "" (σ (ct :: inc)) optionLabels hmem
    (by simpa [optionLabels] using hidx)
  have hfst : (optionLabels.zip (σ (ct :: inc))).map Prod.fst = optionLabels :=
    List.map_fst_zip _ _ (by rw [hall]; exact Nat.le_refl 4)
  unfold createOptionsDict
  dsimp only
  rw [htake, hfind]
  exact ⟨_, rfl, rfl, rfl, hidx, hfst⟩

/-! ## Pipeline lemmas -/

theorem universalConcepts_valid {level : String}
    (h : level = "beginner" ∨ level = "intermediate" ∨ level = "advanced") :
    ∃ u, universalConcepts level = some u ∧ u ≠ [] := by
  rcases h with rfl | rfl | rfl <;> exact ⟨_, rfl, by simp⟩

theorem topicDict_valid {kv : String × (String → Option (List String))}
    (hkv : kv ∈ topicConceptGenerators) {level : String}
    (h : level = "beginner" ∨ level = "intermediate" ∨ level = "advanced") :
    ∃ cs, kv.2 level = some cs ∧ cs ≠ [] := by
  simp only [topicConceptGenerators, List.mem_cons, List.not_mem_nil, or_false] at hkv
  rcases hkv with rfl | rfl | rfl <;>
    rcases h with rfl | rfl | rfl <;>
    exact ⟨_, rfl, by simp⟩

theorem getConceptsForTopic_valid (topic : String) {level : String}
    (h : level = "beginner" ∨ level = "intermediate" ∨ level = "advanced") :
    ∃ cs, getConceptsForTopic topic level = .ok cs ∧ cs ≠ [] := by
  obtain ⟨u, hu, hune⟩ := universalConcepts_valid h
  cases hfind : topicConceptGenerators.find? fun kv =>
      topicMatches kv.1 (String.mk (pyLower topic.toList)) with
  | none =>
    exact ⟨u, by simp only [getConceptsForTopic, hfind, hu], hune⟩
  | some kv =>
    obtain ⟨cs, hcs, hcsne⟩ := topicDict_valid (List.mem_of_find?_eq_some hfind) h
    refine ⟨cs, ?_, hcsne⟩
    simp only [getConceptsForTopic, hfind, hu, hcs]
    rfl

theorem conceptPool_valid (topic : String) {level : String}
    (h : level = "beginner" ∨ level = "intermediate" ∨ level = "advanced")
    (n : ℕ) : ∃ pool, conceptPool topic level n = .ok pool ∧ pool ≠ [] := by
  obtain ⟨cs, hcs, hcsne⟩ := getConceptsForTopic_valid topic h
  by_cases hshort : cs.length < n
  · refine ⟨cs ++ (universalConcepts level).getD [], ?_, ?_⟩
    · simp only [conceptPool, hcs, if_pos hshort]
    · simp [hcsne]
  · refine ⟨cs, ?_, hcsne⟩
    simp only [conceptPool, hcs, if_neg hshort]

theorem generateFallbackQuestion_ok (o : RandomOracle) (hv : o.Valid)
    (req : QuestionRequest) (core_type : String) {concepts : List String}
    (hne : concepts ≠ []) (index : ℕ) :
    ∃ d, generateFallbackQuestion o req core_type concepts index = .ok d ∧
      d.options.map Prod.fst = optionLabels ∧
      d.correct ∈ d.options.map Prod.fst := by
  cases concepts with
  | nil => exact absurd rfl hne
  | cons c cs =>
    unfold generateFallbackQuestion
    dsimp only
    set concept := (c :: cs).getD (index % (c :: cs).length) c with hconcept
    have main : ∀ ct' inc', inc'.length = 3 →
        ∃ d, createOptionsDict (o.optionShuffle index) ct' inc' concept req.topic
            req.level = .ok d ∧
          d.options.map Prod.fst = optionLabels ∧
          d.correct ∈ d.options.map Prod.fst := by
      intro ct' inc' hlen'
      obtain ⟨d, hd, hopts, hcorr, hidx, hfst⟩ :=
        createOptionsDict_ok (o.optionShuffle index) ct' inc' concept req.topic
          req.level (hv.2 index _) hlen'
      refine ⟨d, hd, hfst, ?_⟩
      rw [hcorr, hfst]
      have : (optionLabels.getD ((o.optionShuffle index (ct' :: inc')).indexOf ct') "")
          ∈ optionLabels := getD_mem_of_lt optionLabels "" (by simpa using hidx)
      exact this
    by_cases hb : core_type = "baseline"
    · rw [if_pos hb]
      exact main _ _ rfl
    · rw [if_neg hb]
      exact main _ _ rfl

theorem exceptMap_ok {ε α β : Type} {f : α → β} {x : Except ε α} {b : β}
    (h : x.map f = .ok b) : ∃ a, x = .ok a ∧ b = f a := by
  cases x with
  | error e => simp [Except.map] at h
  | ok a => exact ⟨a, rfl, by simpa [Except.map] using h.symm⟩

theorem generateSingleQuestion_id (o : RandomOracle) (models_loaded : Bool)
    (counter : ℕ) (req : QuestionRequest) (index : ℕ) (concepts : List String)
    (q : GeneratedQuestion)
    (h : generateSingleQuestion o models_loaded counter req index concepts = .ok q) :
    q.id = "AI_GEN_" ++ Nat.repr (counter + index) := by
  unfold generateSingleQuestion at h
  obtain ⟨d, _, rfl⟩ := exceptMap_ok h
  rfl

theorem generateSingleQuestion_ok (o : RandomOracle) (hv : o.Valid)
    (models_loaded : Bool) (counter : ℕ) (req : QuestionRequest) (index : ℕ)
    {concepts : List String} (hne : concepts ≠ []) :
    ∃ q, generateSingleQuestion o models_loaded counter req index concepts = .ok q ∧
      q.options.map Prod.fst = optionLabels ∧
      q.correct ∈ q.options.map Prod.fst ∧
      q.id = "AI_GEN_" ++ Nat.repr (counter + index) := by
  unfold generateSingleQuestion
  dsimp only
  set ct := match req.core_type with
    | some s => if s = "" then determineCoreType req.level index req.num_questions else s
    | none => determineCoreType req.level index req.num_questions with hct
  obtain ⟨d, hd, hfst, hcorr⟩ := generateFallbackQuestion_ok o hv req ct hne index
  cases models_loaded with
  | false => exact ⟨_, by rw [hd]; rfl, hfst, hcorr, rfl⟩
  | true =>
    rw [generateAiQuestion_eq_fallback, hd]
    exact ⟨_, rfl, hfst, hcorr, rfl⟩

theorem questionLoop_ok (o : RandomOracle) (models_loaded : Bool) (counter : ℕ)
    (req : QuestionRequest) (concepts : List String) :
    ∀ is : List ℕ,
      (∀ i ∈ is, ∃ q, generateSingleQuestion o models_loaded counter req i concepts = .ok q) →
      ∃ qs, questionLoop o models_loaded counter req concepts is = .ok qs ∧
        qs.length = is.length := by
  intro is
  induction is with
  | nil => intro _; exact ⟨[], rfl, rfl⟩
  | cons i is ih =>
    intro h
    obtain ⟨q, hq⟩ := h i (List.mem_cons_self i is)
    obtain ⟨qs, hqs, hlen⟩ := ih fun j hj => h j (List.mem_cons_of_mem i hj)
    refine ⟨q :: qs, ?_, by simp [hlen]⟩
    unfold questionLoop
    rw [hq, hqs]

theorem questionLoop_mem (o : RandomOracle) (models_loaded : Bool) (counter : ℕ)
    (req : QuestionRequest) (concepts : List String) :
    ∀ (is : List ℕ) (qs : List GeneratedQuestion),
      questionLoop o models_loaded counter req concepts is = .ok qs →
      ∀ q ∈ qs, ∃ i ∈ is,
        generateSingleQuestion o models_loaded counter req i concepts = .ok q := by
  intro is
  induction is with
  | nil =>
    intro qs h q hq
    rw [show questionLoop o models_loaded counter req concepts [] = .ok [] from rfl] at h
    cases h
    exact absurd hq (List.not_mem_nil q)
  | cons i is ih =>
    intro qs h q hq
    unfold questionLoop at h
    cases hsingle : generateSingleQuestion o models_loaded counter req i concepts with
    | error e => rw [hsingle] at h; cases h
    | ok q' =>
      rw [hsingle] at h
      cases hrest : questionLoop o models_loaded counter req concepts is with
      | error e => rw [hrest] at h; cases h
      | ok qs' =>
        rw [hrest] at h
        cases h
        rcases List.mem_cons.mp hq with rfl | hq'
        · exact ⟨i, List.mem_cons_self i is, hsingle⟩
        · obtain ⟨j, hj, hjq⟩ := ih qs' hrest q hq'
          exact ⟨j, List.mem_cons_of_mem i hj, hjq⟩

theorem questionLoop_ids (o : RandomOracle) (models_loaded : Bool) (counter : ℕ)
    (req : QuestionRequest) (concepts : List String) :
    ∀ (is : List ℕ) (qs : List GeneratedQuestion),
      questionLoop o models_loaded counter req concepts is = .ok qs →
      qs.map GeneratedQuestion.id =
        is.map fun i => "AI_GEN_" ++ Nat.repr (counter + i) := by
  intro is
  induction is with
  | nil =>
    intro qs h
    rw [show questionLoop o models_loaded counter req concepts [] = .ok [] from rfl] at h
    cases h
    rfl
  | cons i is ih =>
    intro qs h
    unfold questionLoop at h
    cases hsingle : generateSingleQuestion o models_loaded counter req i concepts with
    | error e => rw [hsingle] at h; cases h
    | ok q' =>
      rw [hsingle] at h
      cases hrest : questionLoop o models_loaded counter req concepts is with
      | error e => rw [hrest] at h; cases h
      | ok qs' =>
        rw [hrest] at h
        cases h
        have hid := generateSingleQuestion_id o models_loaded counter req i
          concepts q' hsingle
        simp only [List.map_cons, hid, ih qs' hrest]

theorem generateFallbackQuestion_structure (o : RandomOracle) (hv : o.Valid)
    (req : QuestionRequest) (core_type : String) (concepts : List String)
    (index : ℕ) (d : QuestionData)
    (h : generateFallbackQuestion o req core_type concepts index = .ok d) :
    d.options.map Prod.fst = optionLabels ∧ d.correct ∈ d.options.map Prod.fst := by
  have hne : concepts ≠ [] := by
    intro he
    subst he
    rw [show generateFallbackQuestion o req core_type [] index =
        .error .zeroDivisionError from rfl] at h
    cases h
  obtain ⟨d', hd', hfst, hcorr⟩ :=
    generateFallbackQuestion_ok o hv req core_type hne index
  rw [h] at hd'
  cases hd'
  exact ⟨hfst, hcorr⟩

theorem generateSingleQuestion_structure (o : RandomOracle) (hv : o.Valid)
    (models_loaded : Bool) (counter : ℕ) (req : QuestionRequest) (index : ℕ)
    (concepts : List String) (q : GeneratedQuestion)
    (h : generateSingleQuestion o models_loaded counter req index concepts = .ok q) :
    q.options.map Prod.fst = optionLabels ∧ q.correct ∈ q.options.map Prod.fst := by
  unfold generateSingleQuestion at h
  obtain ⟨d, hdata, rfl⟩ := exceptMap_ok h
  cases models_loaded with
  | false => exact generateFallbackQuestion_structure o hv req _ concepts index d hdata
  | true =>
    rw [if_pos rfl, generateAiQuestion_eq_fallback] at hdata
    exact generateFallbackQuestion_structure o hv req _ concepts index d hdata

deriving instance DecidableEq for Except

set_option maxRecDepth 4000

/-! # The claims -/

/-- Modelled from the claim's words (`C1`), for comparison with the code's
`baselineCount`: the mathematical floor of the exact product
`total * share`, with share `3/5` for beginner, `1/2` for intermediate,
`2/5` for advanced and `3/5` for any unknown level. -/
def specBaselineFloor (level : String) (total : ℕ) : ℕ :=
  if level = "beginner" then total * 3 / 5
  else if level = "intermediate" then total / 2
  else if level = "advanced" then total * 2 / 5
  else total * 3 / 5

theorem pyIntMulFloat_06 : ∀ t : Fin 51, pyIntMulFloat t.val mant06 = t.val * 3 / 5 := by
  decide

theorem pyIntMulFloat_05 : ∀ t : Fin 51, pyIntMulFloat t.val mant05 = t.val / 2 := by
  decide

theorem pyIntMulFloat_04 : ∀ t : Fin 51, pyIntMulFloat t.val mant04 = t.val * 2 / 5 := by
  decide

theorem baselineCount_eq_spec (level : String) (total : ℕ)
    (h1 : 1 ≤ total) (h2 : total ≤ 50) :
    baselineCount level total = specBaselineFloor level total := by
  unfold baselineCount baselineMantissa specBaselineFloor
  split_ifs
  · exact pyIntMulFloat_06 ⟨total, by omega⟩
  · exact pyIntMulFloat_05 ⟨total, by omega⟩
  · exact pyIntMulFloat_04 ⟨total, by omega⟩
  · exact pyIntMulFloat_06 ⟨total, by omega⟩

/-- C1: for every level (the three known ones and any unknown one, which
falls back to the 0.6 share) and every `total` in `[1, 50]`,
`_determine_core_type(level, index, total)` — despite computing
`int(total_questions * baseline_ratio)` with binary doubles — returns
`"baseline"` exactly for `index < floor(total * share)` with the floor of
the exact rational product, and `"variable"` exactly for the remaining
indices; the embedded function depends on nothing but
`(level, index, total)`. -/
theorem C1_core_type_distribution (level : String) (index total : ℕ)
    (h1 : 1 ≤ total) (h2 : total ≤ 50) :
    (determineCoreType level index total = "baseline" ↔
      index < specBaselineFloor level total) ∧
    (determineCoreType level index total = "variable" ↔
      specBaselineFloor level total ≤ index) := by
  have he := baselineCount_eq_spec level total h1 h2
  unfold determineCoreType
  rw [he]
  by_cases hlt : index < specBaselineFloor level total
  · rw [if_pos hlt]
    exact ⟨⟨fun _ => hlt, fun _ => rfl⟩,
      ⟨fun h' => absurd h' (by decide), fun h' => absurd hlt (by omega)⟩⟩
  · rw [if_neg hlt]
    exact ⟨⟨fun h' => absurd h' (by decide), fun h' => absurd h' hlt⟩,
      ⟨fun _ => by omega, fun _ => rfl⟩⟩

/-- Witness for C1 at `level = "beginner"`, `index = 4`, `total = 8`:
`floor(8 * 0.6) = 4`, so index 4 is the first `"variable"` one. -/
theorem C1_witness :
    (1 ≤ 8 ∧ 8 ≤ 50) ∧
    ((determineCoreType "beginner" 4 8 = "baseline" ↔
        4 < specBaselineFloor "beginner" 8) ∧
      (determineCoreType "beginner" 4 8 = "variable" ↔
        specBaselineFloor "beginner" 8 ≤ 4)) :=
  ⟨⟨by decide, by decide⟩, C1_core_type_distribution "beginner" 4 8 (by decide) (by decide)⟩

/-- C2: every question a `generate_questions` call returns — on the AI path
(`models_loaded = true`) as well as on the template path — carries an
options mapping whose keys are exactly the four distinct labels
`A`, `B`, `C`, `D`, with its correct label among them. -/
theorem C2_options_invariant (o : RandomOracle) (hv : o.Valid)
    (models_loaded : Bool) (counter : ℕ) (req : QuestionRequest)
    (qs : List GeneratedQuestion)
    (hqs : generateQuestions o models_loaded counter req = .ok qs)
    (q : GeneratedQuestion) (hq : q ∈ qs) :
    q.options.map Prod.fst = ["A", "B", "C", "D"] ∧
      q.correct ∈ q.options.map Prod.fst := by
  unfold generateQuestions at hqs
  cases hpool : conceptPool req.topic req.level req.num_questions with
  | error e => rw [hpool] at hqs; cases hqs
  | ok pool =>
    rw [hpool] at hqs
    dsimp only at hqs
    obtain ⟨i, _, hsingle⟩ :=
      questionLoop_mem o models_loaded counter req (o.conceptShuffle pool)
        (List.range req.num_questions) qs hqs q hq
    exact generateSingleQuestion_structure o hv models_loaded counter req i
      (o.conceptShuffle pool) q hsingle

/-- Witness for C2: a concrete one-question batch on the identity oracle;
`q0batch` is the single question it returns. -/
theorem C2_witness :
    idOracle.Valid ∧
    generateQuestions idOracle false 1000
        { topic := "Python", level := "beginner", num_questions := 1 } =
      .ok [q0batch] ∧
    q0batch ∈ [q0batch] ∧
    (q0batch.options.map Prod.fst = ["A", "B", "C", "D"] ∧
      q0batch.correct ∈ q0batch.options.map Prod.fst) :=
  ⟨⟨fun _ => List.Perm.refl _, fun _ _ => List.Perm.refl _⟩, by decide,
    List.mem_cons_self _ _,
    C2_options_invariant idOracle
      ⟨fun _ => List.Perm.refl _, fun _ _ => List.Perm.refl _⟩ false 1000
      { topic := "Python", level := "beginner", num_questions := 1 }
      [q0batch] (by decide) q0batch (List.mem_cons_self _ _)⟩

/-- C3: `_parse_ai_generated_question` returns `None` on every input: any
text passing the two-option guard reaches the explanation f-string, whose
out-of-scope names `concept`, `topic`, `level` raise `NameError`, which the
`except` converts to `None`; consequently `_generate_ai_question` always
produces its result through `_generate_fallback_question`. -/
theorem C3_parse_always_none :
    (∀ s : List Char, parseAIGeneratedQuestion s = none) ∧
    ∀ (o : RandomOracle) (req : QuestionRequest) (core_type : String)
      (concepts : List String) (index : ℕ),
      generateAiQuestion o req core_type concepts index =
        generateFallbackQuestion o req core_type concepts index :=
  ⟨parseAIGeneratedQuestion_eq_none, generateAiQuestion_eq_fallback⟩

/-- C4: on raw text with fewer than two distinct lettered option markers the
parser returns the none-result (and, as the second conjunct shows, already
its option dict has fewer than two entries, so the `len(options) < 2` guard
fires before anything could raise). -/
theorem C4_too_few_markers (s : List Char) (h : (markerLetters s).length < 2) :
    parseAIGeneratedQuestion s = none ∧
      (buildOptions (scanOptions s)).length < 2 :=
  ⟨parseAIGeneratedQuestion_eq_none s,
    lt_of_le_of_lt (buildOptions_length_le s) h⟩

/-- Witness for C4 at the spec's example input. -/
theorem C4_witness :
    (markerLetters "This is just prose with no options.".toList).length < 2 ∧
    (parseAIGeneratedQuestion "This is just prose with no options.".toList = none ∧
      (buildOptions (scanOptions "This is just prose with no options.".toList)).length < 2) :=
  ⟨by decide, C4_too_few_markers _ (by decide)⟩

/-- C5 (the code deviates from this claim): the correct-answer search runs
on `generated_text.lower()` while its capture class is the uppercase
`[A-D]`, so it never matches and the correct label always defaults to the
first extracted option label.  On `"Q? A) x B) y answer: b"` the parser
extracts options `A` and `B` and the claim demands correct label `"B"` from
the answer phrase, but the code yields `"A"`. -/
theorem C5_answer_search_dead :
    (∀ s : List Char, searchCorrect (pyLower s) = none) ∧
    (buildOptions (scanOptions "Q? A) x B) y answer: b".toList)).map Prod.fst =
      ['A', 'B'] ∧
    correctAnswerStep "Q? A) x B) y answer: b".toList
        (buildOptions (scanOptions "Q? A) x B) y answer: b".toList)) = some 'A' :=
  ⟨searchCorrect_pyLower_eq_none, by decide, by decide⟩

/-- Counterexample for C6 as stated: under a text collision (the correct
text `"x"` also appears among the incorrect options) the recorded label is
the first one holding that text in label order — here `"B"` for the shuffle
outcome `["y", "x", "x", "z"]` — not the claimed `"A"`. -/
theorem C6_counterexample :
    (((fun _ => ["y", "x", "x", "z"]) ("x" :: ["x", "y", "z"]) : List String).Perm
        ("x" :: ["x", "y", "z"])) ∧
    (createOptionsDict (fun _ => ["y", "x", "x", "z"]) "x" ["x", "y", "z"]
        "c" "t" "l").toOption.map QuestionData.correct = some "B" ∧
    ("B" : String) ≠ "A" :=
  ⟨by decide, by decide, by decide⟩

/-- C6 (amended): for every synthesized option set the scan records the
first label in `A`-`D` order whose text equals the correct text; when the
correct text differs from every incorrect text — as it does for every option
set the generators build — this is exactly the label assigned to the correct
statement, whatever position the shuffle gave it (round-trip, no lost
label). -/
theorem C6_roundtrip (σ : List String → List String) (ct : String)
    (inc : List String) (cc tt ll : String)
    (hp : (σ (ct :: inc)).Perm (ct :: inc)) (hlen : inc.length = 3) :
    ∃ d, createOptionsDict σ ct inc cc tt ll = .ok d ∧
      d.options = optionLabels.zip (σ (ct :: inc)) ∧
      d.correct = optionLabels.getD ((σ (ct :: inc)).indexOf ct) "" ∧
      (ct ∉ inc → ∀ i : ℕ, i < 4 → (σ (ct :: inc)).getD i "" = ct →
        d.correct = optionLabels.getD i "") := by
  obtain ⟨d, hd, hopts, hcorr, hidx, hfst⟩ :=
    createOptionsDict_ok σ ct inc cc tt ll hp hlen
  refine ⟨d, hd, hopts, hcorr, fun hnotin i hi hget => ?_⟩
  have hall : (σ (ct :: inc)).length = 4 := by
    rw [hp.length_eq]
    simp [hlen]
  have hcount : (σ (ct :: inc)).count ct = 1 := by
    rw [hp.count_eq, List.count_cons_self, List.count_eq_zero.mpr hnotin]
  have hio : (σ (ct :: inc)).indexOf ct = i :=
    indexOf_eq_of_count_one ct "" _ i hcount (by rw [hall]; exact hi) hget
  rw [hcorr, hio]

/-- Witness for C6 at the identity shuffle with distinct texts. -/
theorem C6_witness :
    ((fun (l : List String) => l) ("w" :: ["x", "y", "z"])).Perm
        ("w" :: ["x", "y", "z"]) ∧
    (["x", "y", "z"] : List String).length = 3 ∧
    ∃ d, createOptionsDict (fun l => l) "w" ["x", "y", "z"] "c" "t" "l" = .ok d ∧
      d.options = optionLabels.zip ((fun (l : List String) => l) ("w" :: ["x", "y", "z"])) ∧
      d.correct = optionLabels.getD
        (((fun (l : List String) => l) ("w" :: ["x", "y", "z"])).indexOf "w") "" ∧
      ("w" ∉ (["x", "y", "z"] : List String) → ∀ i : ℕ, i < 4 →
        ((fun (l : List String) => l) ("w" :: ["x", "y", "z"])).getD i "" = "w" →
        d.correct = optionLabels.getD i "") :=
  ⟨List.Perm.refl _, rfl,
    C6_roundtrip (fun l => l) "w" ["x", "y", "z"] "c" "t" "l"
      (List.Perm.refl _) rfl⟩

/-- Counterexample for C7 as stated: for topic `"programming"` at level
`"beginner"` with 7 questions requested, the pool is the plain
concatenation of the topic list and the universal list and holds
`"variables"` twice — it is not deduplicated. -/
theorem C7_counterexample :
    conceptPool "programming" "beginner" 7 =
      .ok ["variables", "loops", "functions", "conditionals", "arrays", "strings",
        "basic concepts", "fundamentals", "introduction", "getting started",
        "syntax", "variables", "data types", "operators", "control flow"] ∧
    ¬ (["variables", "loops", "functions", "conditionals", "arrays", "strings",
        "basic concepts", "fundamentals", "introduction", "getting started",
        "syntax", "variables", "data types", "operators", "control flow"] :
        List String).Nodup :=
  ⟨by decide, by decide⟩

/-- C7 (amended): when the topic's concept list is shorter than the request
count, the pool `generate_questions` hands to the shuffle is the topic list
extended with the level's universal concepts by plain list concatenation;
no deduplication is applied, so shared entries (such as `"variables"` for
programming/beginner) remain duplicated. -/
theorem C7_pool_extends (topic : String) {level : String}
    (h : level = "beginner" ∨ level = "intermediate" ∨ level = "advanced")
    {n : ℕ} {cs : List String}
    (hcs : getConceptsForTopic topic level = .ok cs)
    (hshort : cs.length < n) :
    ∃ u, universalConcepts level = some u ∧
      conceptPool topic level n = .ok (cs ++ u) := by
  obtain ⟨u, hu, _⟩ := universalConcepts_valid h
  refine ⟨u, hu, ?_⟩
  simp only [conceptPool, hcs, if_pos hshort, hu, Option.getD_some]

/-- Witness for C7 at topic `"programming"`, level `"beginner"`, count 7. -/
theorem C7_witness :
    getConceptsForTopic "programming" "beginner" =
      .ok ["variables", "loops", "functions", "conditionals", "arrays", "strings"] ∧
    (["variables", "loops", "functions", "conditionals", "arrays", "strings"] :
        List String).length < 7 ∧
    ∃ u, universalConcepts "beginner" = some u ∧
      conceptPool "programming" "beginner" 7 =
        .ok (["variables", "loops", "functions", "conditionals", "arrays",
          "strings"] ++ u) :=
  ⟨by decide, by decide,
    C7_pool_extends "programming" (Or.inl rfl) (by decide) (by decide)⟩

/-- C8: on a fallback-initialized instance, for every valid level, every
topic, every count and every shuffle outcome, `generate_questions` returns
exactly `num_questions` records — never a short batch, never an escaping
exception. -/
theorem C8_exact_count (o : RandomOracle) (hv : o.Valid) (models_loaded : Bool)
    (counter : ℕ) (req : QuestionRequest)
    (hl : req.level = "beginner" ∨ req.level = "intermediate" ∨
      req.level = "advanced")
    (_hn : 1 ≤ req.num_questions) :
    ∃ qs, generateQuestions o models_loaded counter req = .ok qs ∧
      qs.length = req.num_questions := by
  obtain ⟨pool, hpool, hpoolne⟩ := conceptPool_valid req.topic hl req.num_questions
  have hconc : o.conceptShuffle pool ≠ [] := by
    intro he
    have hlen := (hv.1 pool).length_eq
    rw [he] at hlen
    simp only [List.length_nil] at hlen
    exact hpoolne (List.length_eq_zero.mp hlen.symm)
  obtain ⟨qs, hqs, hlen⟩ := questionLoop_ok o models_loaded counter req
    (o.conceptShuffle pool) (List.range req.num_questions)
    fun i _ =>
      (generateSingleQuestion_ok o hv models_loaded counter req i hconc).imp
        fun q hq => hq.1
  refine ⟨qs, ?_, by rw [hlen, List.length_range]⟩
  simp only [generateQuestions, hpool]
  exact hqs

/-- Witness for C8: a concrete three-question batch. -/
theorem C8_witness :
    idOracle.Valid ∧
    ((QuestionRequest.mk "Python" "beginner" 3 none none none).level = "beginner" ∨
      (QuestionRequest.mk "Python" "beginner" 3 none none none).level = "intermediate" ∨
      (QuestionRequest.mk "Python" "beginner" 3 none none none).level = "advanced") ∧
    1 ≤ (QuestionRequest.mk "Python" "beginner" 3 none none none).num_questions ∧
    ∃ qs, generateQuestions idOracle false 1000
        (QuestionRequest.mk "Python" "beginner" 3 none none none) = .ok qs ∧
      qs.length = (QuestionRequest.mk "Python" "beginner" 3 none none none).num_questions :=
  ⟨⟨fun _ => List.Perm.refl _, fun _ _ => List.Perm.refl _⟩, Or.inl rfl, by decide,
    C8_exact_count idOracle
      ⟨fun _ => List.Perm.refl _, fun _ _ => List.Perm.refl _⟩ false 1000
      (QuestionRequest.mk "Python" "beginner" 3 none none none) (Or.inl rfl)
      (by decide)⟩

/-- Counterexample for C9 as stated: `question_id_counter` is never
incremented, so two successive `generate_questions` calls on the same
instance both hand out `AI_GEN_1000` and `AI_GEN_1001` — identifiers are
reused and the counter does not strictly increase. -/
theorem C9_counterexample :
    (generateQuestionsWithState idOracle false 1000
        { topic := "Python", level := "beginner", num_questions := 2 }).2 = 1000 ∧
    (generateQuestionsWithState idOracle false 1000
        { topic := "Python", level := "beginner", num_questions := 2 }).1.toOption.map
        (List.map GeneratedQuestion.id) = some ["AI_GEN_1000", "AI_GEN_1001"] ∧
    (generateQuestionsWithState idOracle false
        (generateQuestionsWithState idOracle false 1000
          { topic := "Python", level := "beginner", num_questions := 2 }).2
        { topic := "Python", level := "beginner", num_questions := 2 }).1.toOption.map
        (List.map GeneratedQuestion.id) = some ["AI_GEN_1000", "AI_GEN_1001"] :=
  ⟨rfl, by decide, by decide⟩

/-- C9 (amended): within one batch the identifiers
`AI_GEN_<counter + index>` are pairwise distinct, but the counter is left
unchanged by the call, so a later call on the same instance regenerates the
identical identifier sequence instead of fresh ones. -/
theorem C9_ids_within_batch (o : RandomOracle) (models_loaded : Bool)
    (counter : ℕ) (req : QuestionRequest) (qs : List GeneratedQuestion)
    (h : generateQuestions o models_loaded counter req = .ok qs) :
    (qs.map GeneratedQuestion.id).Nodup ∧
      qs.map GeneratedQuestion.id =
        (List.range req.num_questions).map
          (fun i => "AI_GEN_" ++ Nat.repr (counter + i)) ∧
      (generateQuestionsWithState o models_loaded counter req).2 = counter := by
  unfold generateQuestions at h
  cases hpool : conceptPool req.topic req.level req.num_questions with
  | error e => rw [hpool] at h; cases h
  | ok pool =>
    rw [hpool] at h
    dsimp only at h
    have hids := questionLoop_ids o models_loaded counter req
      (o.conceptShuffle pool) (List.range req.num_questions) qs h
    refine ⟨?_, hids, rfl⟩
    rw [hids]
    refine List.Nodup.map ?_ (List.nodup_range _)
    intro a b hab
    have := idString_injective hab
    omega

/-- Witness for C9 (amended) at a concrete two-question batch. -/
theorem C9_witness :
    generateQuestions idOracle false 1000
        { topic := "Python", level := "beginner", num_questions := 2 } =
      .ok ((generateQuestions idOracle false 1000
        { topic := "Python", level := "beginner", num_questions := 2 }).toOption.getD []) ∧
    (((generateQuestions idOracle false 1000
        { topic := "Python", level := "beginner", num_questions := 2 }).toOption.getD []).map
          GeneratedQuestion.id).Nodup ∧
      ((generateQuestions idOracle false 1000
        { topic := "Python", level := "beginner", num_questions := 2 }).toOption.getD []).map
          GeneratedQuestion.id =
        (List.range 2).map (fun i => "AI_GEN_" ++ Nat.repr (1000 + i)) ∧
      (generateQuestionsWithState idOracle false 1000
        { topic := "Python", level := "beginner", num_questions := 2 }).2 = 1000 :=
  ⟨by decide,
    C9_ids_within_batch idOracle false 1000
      { topic := "Python", level := "beginner", num_questions := 2 } _ (by decide)⟩

/-- C10: on a fallback-initialized instance, any level outside
{beginner, intermediate, advanced} makes `generate_questions` raise
`KeyError(level)` for every topic — even one matching a catalog entry —
because the eagerly evaluated default `self.universal_concepts[level]` of
`concepts.get` runs in both branches of `_get_concepts_for_topic`. -/
theorem C10_invalid_level_keyError (o : RandomOracle) (models_loaded : Bool)
    (counter : ℕ) (req : QuestionRequest)
    (h1 : req.level ≠ "beginner") (h2 : req.level ≠ "intermediate")
    (h3 : req.level ≠ "advanced") :
    generateQuestions o models_loaded counter req =
      .error (.keyError req.level) := by
  have hu : universalConcepts req.level = none := by
    unfold universalConcepts
    rw [if_neg h1, if_neg h2, if_neg h3]
  have hg : getConceptsForTopic req.topic req.level =
      .error (.keyError req.level) := by
    cases hfind : topicConceptGenerators.find? fun kv =>
        topicMatches kv.1 (String.mk (pyLower req.topic.toList)) with
    | none => simp only [getConceptsForTopic, hfind, hu]
    | some kv => simp only [getConceptsForTopic, hfind, hu]
  simp only [generateQuestions, conceptPool, hg]

/-- Witness for C10 at topic `"python"` (a catalog hit) and level
`"expert"`. -/
theorem C10_witness :
    (("expert" : String) ≠ "beginner" ∧ ("expert" : String) ≠ "intermediate" ∧
      ("expert" : String) ≠ "advanced") ∧
    generateQuestions idOracle false 1000
        { topic := "python", level := "expert", num_questions := 5 } =
      .error (.keyError "expert") :=
  ⟨⟨by decide, by decide, by decide⟩,
    C10_invalid_level_keyError idOracle false 1000
      { topic := "python", level := "expert", num_questions := 5 }
      (by decide) (by decide) (by decide)⟩

end QuizHive
